import Mathlib

/-!
Shallow embedding of the multi-account resolution and aggregation core of
`gmail-multi-inbox-mcp` (TypeScript sources: `src/config.ts`,
`src/accounts.ts`, `src/gmail-client.ts`, `src/index.ts`), together with
theorems settling the spec claims about that core.

Modelling conventions:
* JS strings are Lean `String`s; character-level operations are performed on
  `String.data` (the character list), which is the sequence the JS operations
  traverse.
* JS numbers used as message timestamps (`internalDate`) are modelled as
  `Option Int`: `none` stands for a missing / non-finite (`NaN`) value, which
  the code maps to `0` for sorting.
* Filesystem path resolution (`path.resolve`, `expandHome`, `path.join`) is
  modelled as plain string concatenation of the documented layout
  `<root>/accounts/<id>/...`; no claim depends on path normalisation.
* Asynchronous calls to external collaborators (Gmail API, OAuth exchange,
  file reads) are modelled as explicit `Except String` valued inputs, and the
  handlers' persistence side effects are returned as explicit effect lists.
-/

namespace GmailMcp

/-- `AccountConfig` (src/config.ts): one configured mailbox entry of the
durable registry. Optional TS fields become `Option`s. -/
structure AccountConfig where
  id : String
  email : String
  displayName : Option String := none
  enabled : Bool
  credentialPath : Option String := none
  tokenPath : Option String := none
deriving DecidableEq

/-- `AccountsConfig` (src/config.ts): the durable registry — ordered account
list plus optional default-account id. -/
structure AccountsConfig where
  defaultAccount : Option String
  accounts : List AccountConfig
deriving DecidableEq

/-- The distinct error conditions raised by the core (src/config.ts,
src/accounts.ts, src/index.ts throw `Error`s with distinct messages; the spec
names them `InvalidAccountId`, `UnknownAccount`, `AccountDisabled`,
`AccountRequired`, `NoEnabledAccounts`, `ConfigCorrupt`,
`TokenExchangeIncomplete`, validation errors and pass-through collaborator
errors). -/
inductive ToolError where
  | invalidAccountId (id : String)
  | unknownAccount (id : String)
  | accountDisabled (id : String)
  | accountRequired
  | noEnabledAccounts
  | configCorrupt
  | tokenExchangeIncomplete
  | validationFailed (msg : String)
  | collaboratorError (msg : String)
deriving DecidableEq

/-- One character of the account-id regex class `[a-zA-Z0-9_-]`
(`ACCOUNT_ID_PATTERN` in src/config.ts). -/
def isAccountIdChar (c : Char) : Bool :=
  ('a' ≤ c && c ≤ 'z') || ('A' ≤ c && c ≤ 'Z') || ('0' ≤ c && c ≤ '9') ||
    c == '_' || c == '-'

/-- The JS regex test `/^[a-zA-Z0-9_-]+$/.test(s)`: `s` is nonempty and every
character is in the class. -/
def accountIdMatches (s : String) : Bool :=
  !s.data.isEmpty && s.data.all isAccountIdChar

/-- `validateAccountId` (src/config.ts): throws `InvalidAccountId` when the id
does not match `ACCOUNT_ID_PATTERN`. -/
def validateAccountId (accountId : String) : Except ToolError Unit :=
  if accountIdMatches accountId then .ok () else .error (.invalidAccountId accountId)

/-- The JS test `s.trim() !== ''`: true iff the string contains at least one
non-whitespace character (JS `trim` removes only whitespace). -/
def isNonBlank (s : String) : Bool :=
  s.data.any (fun c => !c.isWhitespace)

/-- `getAccountOrThrow` (src/accounts.ts): validates the id, then looks it up
in the registry (`config.accounts.find(item => item.id === accountId)`),
throwing `UnknownAccount` when no entry matches. -/
def getAccountOrThrow (config : AccountsConfig) (accountId : String) :
    Except ToolError AccountConfig :=
  match validateAccountId accountId with
  | .error e => .error e
  | .ok () =>
    match config.accounts.find? (fun item => item.id == accountId) with
    | some account => .ok account
    | none => .error (.unknownAccount accountId)

/-- `getEnabledAccounts` (src/accounts.ts). -/
def getEnabledAccounts (config : AccountsConfig) : List AccountConfig :=
  config.accounts.filter (fun account => account.enabled)

/-- The `accountId` omitted-or-blank branch of `resolveReadAccounts`
(src/accounts.ts): all enabled accounts, or `NoEnabledAccounts` if none. -/
def resolveAllEnabled (config : AccountsConfig) : Except ToolError (List AccountConfig) :=
  let enabledAccounts := getEnabledAccounts config
  if enabledAccounts.isEmpty then .error .noEnabledAccounts else .ok enabledAccounts

/-- `resolveReadAccounts` (src/accounts.ts): with a non-blank id
(`accountId && accountId.trim() !== ''`), resolve that single account and
require it enabled; otherwise fall back to all enabled accounts. -/
def resolveReadAccounts (config : AccountsConfig) (accountId : Option String) :
    Except ToolError (List AccountConfig) :=
  match accountId with
  | some aid =>
    if isNonBlank aid then
      match getAccountOrThrow config aid with
      | .error e => .error e
      | .ok account =>
        if !account.enabled then .error (.accountDisabled aid) else .ok [account]
    else resolveAllEnabled config
  | none => resolveAllEnabled config

/-- `resolveWriteAccount` (src/accounts.ts): requires an explicit non-blank id
(`AccountRequired` otherwise), then resolves that single account and requires
it enabled. -/
def resolveWriteAccount (config : AccountsConfig) (accountId : Option String) :
    Except ToolError AccountConfig :=
  match accountId with
  | none => .error .accountRequired
  | some aid =>
    if isNonBlank aid then
      match getAccountOrThrow config aid with
      | .error e => .error e
      | .ok account =>
        if !account.enabled then .error (.accountDisabled aid) else .ok account
    else .error .accountRequired

/-- `upsertAccount` (src/config.ts): pure; replace the entry whose id matches
(`findIndex` then in-place assignment on a clone), or append if absent. -/
def upsertAccount (config : AccountsConfig) (nextAccount : AccountConfig) :
    AccountsConfig :=
  match config.accounts.findIdx? (fun account => account.id == nextAccount.id) with
  | none => { config with accounts := config.accounts ++ [nextAccount] }
  | some existingIndex =>
    { config with accounts := config.accounts.set existingIndex nextAccount }

/-- `ParsedEmail` (src/gmail-client.ts): the external message shape consumed
by the merge. `internalDate` is a JS number; `none` models a missing or
non-finite value. The TS fields `from` and `to` are Lean keywords; they are
named `fromAddr` and `toAddr` here. -/
structure ParsedEmail where
  id : String
  threadId : String
  snippet : String
  fromAddr : String
  toAddr : String
  subject : String
  date : String
  internalDate : Option Int
  body : Option String := none
  labels : List String := []
  accountId : String
  accountEmail : String
deriving DecidableEq

/-- `emailDateForSort` (src/index.ts):
`Number.isFinite(email.internalDate) ? email.internalDate : 0`. -/
def emailDateForSort (email : ParsedEmail) : Int :=
  match email.internalDate with
  | some d => d
  | none => 0

/-- The ordering used by the merge: `a` may come before `b` iff
`emailDateForSort b ≤ emailDateForSort a` (descending timestamps). This is the
order induced by the JS comparator
`(a, b) => emailDateForSort(b) - emailDateForSort(a)`. -/
def emailDateGe (a b : ParsedEmail) : Prop :=
  emailDateForSort b ≤ emailDateForSort a

instance : DecidableRel emailDateGe :=
  fun a b => inferInstanceAs (Decidable (emailDateForSort b ≤ emailDateForSort a))

instance : IsTotal ParsedEmail emailDateGe :=
  ⟨fun a b => le_total (emailDateForSort b) (emailDateForSort a)⟩

instance : IsTrans ParsedEmail emailDateGe :=
  ⟨fun _ _ _ h1 h2 => le_trans h2 h1⟩

/-- The merged-list sort of `handleReadEmails` / `handleSearchEmails`
(src/index.ts): `Array.prototype.sort` with the comparator
`(a, b) => emailDateForSort(b) - emailDateForSort(a)`, i.e. a stable sort
descending by `emailDateForSort`; modelled with insertion sort on
`emailDateGe` (the spec leaves tie order unspecified, any stable sort
complies). -/
def sortEmailsDesc (emails : List ParsedEmail) : List ParsedEmail :=
  emails.insertionSort emailDateGe

/-- The per-account record produced inside the fan-out `Promise.all`
(src/index.ts, `handleReadEmails`): the account together with either its
fetched emails or a labelled diagnostic. -/
structure AccountFetchResult where
  account : AccountConfig
  emails : List ParsedEmail
  error : Option String
deriving DecidableEq

/-- One arm of the fan-out (src/index.ts): a successful per-account operation
contributes its emails; a failing one contributes no emails and the diagnostic
`` `${account.id}: ${message}` ``. The surrounding try/catch means a failure
never escapes the arm. -/
def runAccountFetch (op : AccountConfig → Except String (List ParsedEmail))
    (account : AccountConfig) : AccountFetchResult :=
  match op account with
  | .ok emails => { account := account, emails := emails, error := none }
  | .error msg =>
    { account := account, emails := [], error := some (account.id ++ ": " ++ msg) }

/-- The aggregate produced by a read/search fan-out (src/index.ts): the
truncated merged list, the pre-truncation total, and the per-account
diagnostics. -/
structure ReadFanoutOutput where
  returned : List ParsedEmail
  totalFound : Nat
  errors : List String
deriving DecidableEq

/-- The fan-out/merge/truncate pipeline of `handleReadEmails` (src/index.ts,
identically in `handleSearchEmails`): run the per-account operation over every
target account, flatten the successful results, sort descending by
`emailDateForSort`, collect truthy diagnostics
(`.map(r => r.error).filter(Boolean)`), report the untruncated length as
`totalFound` and `merged.slice(0, maxResults)` as the returned list. -/
def runReadFanout (targetAccounts : List AccountConfig)
    (op : AccountConfig → Except String (List ParsedEmail)) (maxResults : Nat) :
    ReadFanoutOutput :=
  let accountResults := targetAccounts.map (runAccountFetch op)
  let merged := sortEmailsDesc (accountResults.flatMap (fun r => r.emails))
  let errors := (accountResults.filterMap (fun r => r.error)).filter (fun e => e != "")
  { returned := merged.take maxResults
    totalFound := merged.length
    errors := errors }

/-- `clamp` (src/index.ts): `Math.max(minValue, Math.min(value, maxValue))`. -/
def clamp (value minValue maxValue : Int) : Int :=
  max minValue (min value maxValue)

/-- The limit computation of `handleReadEmails` (src/index.ts):
`clamp(args.max_results ?? 20, 1, 100)`, where a missing or non-numeric
`max_results` argument becomes the default 20 (`valueToNumber`). -/
def readEmailsMaxResults (requested : Option Int) : Int :=
  clamp (requested.getD 20) 1 100

/-- `handleReadEmails` (src/index.ts) up to text rendering: resolve the target
accounts for a read, then run the fan-out with the clamped limit. Resolution
errors abort the call; per-account operation errors do not. -/
def handleReadEmails (config : AccountsConfig) (accountArg : Option String)
    (requestedMax : Option Int)
    (op : AccountConfig → Except String (List ParsedEmail)) :
    Except ToolError ReadFanoutOutput :=
  match resolveReadAccounts config accountArg with
  | .error e => .error e
  | .ok targetAccounts =>
    .ok (runReadFanout targetAccounts op (readEmailsMaxResults requestedMax).toNat)

/-- The default per-account credentials path
(`getDefaultAccountPaths` in src/config.ts): `<root>/accounts/<id>/credentials.json`. -/
def defaultCredentialsPath (configRoot accountId : String) : String :=
  configRoot ++ "/accounts/" ++ accountId ++ "/credentials.json"

/-- The default per-account token path (`getDefaultAccountPaths` in
src/config.ts): `<root>/accounts/<id>/token.json`. -/
def defaultTokenPath (configRoot accountId : String) : String :=
  configRoot ++ "/accounts/" ++ accountId ++ "/token.json"

/-- The credentials path of `getAccountPaths` (src/config.ts): the
account-level override if set, else the default layout. -/
def accountCredentialsPath (configRoot : String) (account : AccountConfig) : String :=
  account.credentialPath.getD (defaultCredentialsPath configRoot account.id)

/-- The token path of `getAccountPaths` (src/config.ts). -/
def accountTokenPath (configRoot : String) (account : AccountConfig) : String :=
  account.tokenPath.getD (defaultTokenPath configRoot account.id)

/-- One element of the persisted `accounts` array as `JSON.parse` delivers it
to `sanitizeAccount` (src/config.ts): every field may be absent or of the
wrong type. A field of the wrong runtime type is modelled as `none` (the code
only keeps values passing its `typeof` checks); `enabled` is
`Boolean(candidate.enabled)`, the JS truthiness of whatever was stored. -/
structure RawAccount where
  id : Option String := none
  email : Option String := none
  displayName : Option String := none
  enabled : Bool := false
  credentialPath : Option String := none
  tokenPath : Option String := none
deriving DecidableEq

/-- The parsed top-level JSON document consumed by `loadAccountsConfig`
(src/config.ts): `defaultAccount` is `some` iff the stored value was a
string, `accounts` is `some` iff the stored value was an array. -/
structure RawConfig where
  defaultAccount : Option String := none
  accounts : Option (List RawAccount) := none
deriving DecidableEq

/-- The state of the durable registry file as observed by `loadAccountsConfig`
(src/config.ts): absent (`ENOENT`), present but not valid JSON, or parsed. -/
inductive DurableConfig where
  | missing
  | unreadable
  | readable (raw : RawConfig)
deriving DecidableEq

/-- `sanitizeAccount` (src/config.ts): drop entries without a non-blank string
`id` and `email` (`.ok none`), throw `InvalidAccountId` when the id fails the
pattern, otherwise normalise into an `AccountConfig` with path defaults
applied. -/
def sanitizeAccount (configRoot : String) (input : RawAccount) :
    Except ToolError (Option AccountConfig) :=
  match input.id with
  | none => .ok none
  | some id =>
    if !isNonBlank id then .ok none
    else
      match input.email with
      | none => .ok none
      | some email =>
        if !isNonBlank email then .ok none
        else
          match validateAccountId id with
          | .error e => .error e
          | .ok () =>
            .ok (some
              { id := id
                email := email
                displayName := input.displayName
                enabled := input.enabled
                credentialPath :=
                  some (input.credentialPath.getD (defaultCredentialsPath configRoot id))
                tokenPath :=
                  some (input.tokenPath.getD (defaultTokenPath configRoot id)) })

/-- The `accountsRaw.map(sanitizeAccount).filter(≠ null)` step of
`loadAccountsConfig` (src/config.ts): an `InvalidAccountId` throw from any
entry aborts the whole map (and is caught by the surrounding try/catch). -/
def sanitizeAccounts (configRoot : String) :
    List RawAccount → Except ToolError (List AccountConfig)
  | [] => .ok []
  | raw :: rest =>
    match sanitizeAccount configRoot raw with
    | .error e => .error e
    | .ok none => sanitizeAccounts configRoot rest
    | .ok (some account) =>
      match sanitizeAccounts configRoot rest with
      | .error e => .error e
      | .ok accounts => .ok (account :: accounts)

/-- The empty registry synthesised by `loadAccountsConfig` when no durable
copy exists (src/config.ts). -/
def emptyAccountsConfig : AccountsConfig :=
  { defaultAccount := none, accounts := [] }

instance {ε α : Type} [DecidableEq ε] [DecidableEq α] : DecidableEq (Except ε α) :=
  fun a b =>
    match a, b with
    | .ok x, .ok y => decidable_of_iff (x = y) (by simp)
    | .error x, .error y => decidable_of_iff (x = y) (by simp)
    | .ok _, .error _ => isFalse (by simp)
    | .error _, .ok _ => isFalse (by simp)

/-- The result of a `loadAccountsConfig` call: the returned (or thrown)
registry plus the registry it persisted during the call, if any. -/
structure LoadOutcome where
  result : Except ToolError AccountsConfig
  persisted : Option AccountsConfig
deriving DecidableEq

/-- `loadAccountsConfig` (src/config.ts): on `ENOENT`, synthesise and persist
the empty registry; on any other failure inside the try block (unparseable
JSON, or an `InvalidAccountId` throw from `sanitizeAccount`), fail with the
`Failed to read accounts config` error (`ConfigCorrupt`); otherwise keep the
sanitised accounts and keep `defaultAccount` only when it is a string naming
one of them. -/
def loadAccountsConfig (configRoot : String) (durable : DurableConfig) :
    LoadOutcome :=
  match durable with
  | .missing =>
    { result := .ok emptyAccountsConfig, persisted := some emptyAccountsConfig }
  | .unreadable => { result := .error .configCorrupt, persisted := none }
  | .readable raw =>
    match sanitizeAccounts configRoot (raw.accounts.getD []) with
    | .error _ => { result := .error .configCorrupt, persisted := none }
    | .ok accounts =>
      let defaultAccount :=
        match raw.defaultAccount with
        | some d => if accounts.any (fun account => account.id == d) then some d else none
        | none => none
      { result := .ok { defaultAccount := defaultAccount, accounts := accounts }
        persisted := none }

/-- The token payload returned by the OAuth code exchange
(`exchangeCodeForToken` in src/gmail-client.ts): both fields optional; `none`
models an absent field and `some ""` an empty string (both JS-falsy). -/
structure TokenPayload where
  accessToken : Option String := none
  refreshToken : Option String := none
deriving DecidableEq

/-- JS falsiness of an optional string field: `undefined`/`null`/`""`. -/
def jsStringFalsy : Option String → Bool
  | none => true
  | some s => s == ""

/-- The persistence side effects of a `finish_account_auth` call: token files
written and registry snapshots saved, in order. -/
structure FinishAuthEffects where
  tokenWrites : List TokenPayload
  configSaves : List AccountsConfig
deriving DecidableEq

/-- The result of `handleFinishAccountAuth`: returned or thrown value plus
side effects. -/
structure FinishAuthOutcome where
  result : Except ToolError AccountsConfig
  effects : FinishAuthEffects
deriving DecidableEq

/-- `handleFinishAccountAuth` (src/index.ts): validate the arguments, resolve
the pending account in the loaded registry, read its credentials and exchange
the authorization code (both external collaborators, passed in as `Except`
values), fail with `TokenExchangeIncomplete` when the payload has neither an
access token nor a refresh token, otherwise persist the token, flip the entry
to `enabled`, save, then best-effort verify the profile email (failures fall
back to the stored email) and save the final registry, making this account
the default when none (JS-truthy) was set. -/
def handleFinishAccountAuth (configRoot : String) (config : AccountsConfig)
    (accountId authorizationCode : String)
    (credentialsRead : Except String Unit)
    (exchange : Except String TokenPayload)
    (clientCreate : Except String Unit)
    (profileFetch : Except String String) : FinishAuthOutcome :=
  if accountId == "" then
    { result := .error (.validationFailed "account_id is required.")
      effects := ⟨[], []⟩ }
  else if authorizationCode == "" then
    { result := .error (.validationFailed "authorization_code is required.")
      effects := ⟨[], []⟩ }
  else
    match validateAccountId accountId with
    | .error e => { result := .error e, effects := ⟨[], []⟩ }
    | .ok () =>
      match getAccountOrThrow config accountId with
      | .error e => { result := .error e, effects := ⟨[], []⟩ }
      | .ok account =>
        match credentialsRead with
        | .error msg => { result := .error (.collaboratorError msg), effects := ⟨[], []⟩ }
        | .ok () =>
          match exchange with
          | .error msg => { result := .error (.collaboratorError msg), effects := ⟨[], []⟩ }
          | .ok tokens =>
            if jsStringFalsy tokens.accessToken && jsStringFalsy tokens.refreshToken then
              { result := .error .tokenExchangeIncomplete, effects := ⟨[], []⟩ }
            else
              let updatedAccount : AccountConfig :=
                { account with
                  enabled := true
                  credentialPath := some (accountCredentialsPath configRoot account)
                  tokenPath := some (accountTokenPath configRoot account) }
              let tempConfig := upsertAccount config updatedAccount
              match getAccountOrThrow tempConfig accountId with
              | .error e =>
                { result := .error e, effects := ⟨[tokens], [tempConfig]⟩ }
              | .ok refreshedAccount =>
                match clientCreate with
                | .error msg =>
                  { result := .error (.collaboratorError msg)
                    effects := ⟨[tokens], [tempConfig]⟩ }
                | .ok () =>
                  let profileEmail :=
                    match profileFetch with
                    | .ok email => email
                    | .error _ => refreshedAccount.email
                  let nextConfig := upsertAccount tempConfig
                    { refreshedAccount with email := profileEmail, enabled := true }
                  let finalConfig :=
                    if jsStringFalsy nextConfig.defaultAccount then
                      { nextConfig with defaultAccount := some accountId }
                    else nextConfig
                  { result := .ok finalConfig
                    effects := ⟨[tokens], [tempConfig, finalConfig]⟩ }

/-! ### Supporting lemmas -/

theorem isAccountIdChar_not_whitespace {c : Char} (h : isAccountIdChar c = true) :
    c.isWhitespace = false := by
  have h1 : c ≠ ' ' := by rintro rfl; exact absurd h (by decide)
  have h2 : c ≠ '\t' := by rintro rfl; exact absurd h (by decide)
  have h3 : c ≠ '\r' := by rintro rfl; exact absurd h (by decide)
  have h4 : c ≠ '\n' := by rintro rfl; exact absurd h (by decide)
  simp [Char.isWhitespace, h1, h2, h3, h4]

/-- A string matching the id pattern contains a non-whitespace character, so
the JS blank test `s.trim() !== ''` passes on it. -/
theorem isNonBlank_of_accountIdMatches {s : String} (h : accountIdMatches s = true) :
    isNonBlank s = true := by
  unfold accountIdMatches at h
  unfold isNonBlank
  rw [Bool.and_eq_true] at h
  obtain ⟨hne, hall⟩ := h
  rw [List.any_eq_true]
  rw [List.all_eq_true] at hall
  cases hd : s.data with
  | nil => rw [hd] at hne; simp at hne
  | cons c cs =>
    refine ⟨c, by simp, ?_⟩
    have hc := hall c (by rw [hd]; simp)
    simp [isAccountIdChar_not_whitespace hc]

theorem accountIdMatches_ne_empty {s : String} (h : accountIdMatches s = true) :
    s ≠ "" := by
  rintro rfl; exact absurd h (by decide)

theorem string_data_append (s t : String) : (s ++ t).data = s.data ++ t.data := by
  cases s; cases t; rfl

/-- The fan-out diagnostic `` `${id}: ${msg}` `` is never the empty string, so
the JS `filter(Boolean)` step keeps every diagnostic. -/
theorem accountErrorLabel_ne_empty (id msg : String) : id ++ ": " ++ msg ≠ "" := by
  intro h
  have hd : (id.data ++ (": ").data ++ msg.data).length = 0 := by
    rw [← string_data_append, ← string_data_append, h]; rfl
  have hc : (": ").data = [':', ' '] := rfl
  rw [hc] at hd
  simp at hd

theorem getAccountOrThrow_ok {config : AccountsConfig} {i : String}
    {a : AccountConfig} (h : getAccountOrThrow config i = .ok a) :
    accountIdMatches i = true ∧ a ∈ config.accounts ∧ a.id = i := by
  by_cases hm : accountIdMatches i = true
  · cases hf : config.accounts.find? (fun item => item.id == i) with
    | none => simp [getAccountOrThrow, validateAccountId, hm, hf] at h
    | some b =>
      have hb : b = a := by
        simpa [getAccountOrThrow, validateAccountId, hm, hf] using h
      subst hb
      exact ⟨hm, List.mem_of_find?_eq_some hf, by simpa using List.find?_some hf⟩
  · simp [getAccountOrThrow, validateAccountId, hm] at h

/-- With pairwise distinct registry ids, `find` locates exactly the member
with the sought id. -/
theorem find?_id_of_nodup :
    ∀ (l : List AccountConfig), (l.map AccountConfig.id).Nodup →
      ∀ a ∈ l, l.find? (fun x => x.id == a.id) = some a := by
  intro l
  induction l with
  | nil => intro _ a ha; exact absurd ha (List.not_mem_nil a)
  | cons x xs ih =>
    intro hnd a ha
    rw [List.map_cons, List.nodup_cons] at hnd
    rcases List.mem_cons.mp ha with rfl | hmem
    · rw [List.find?_cons_of_pos _ (by simp)]
    · have hne : (x.id == a.id) = false := by
        rw [beq_eq_false_iff_ne]
        intro e
        exact hnd.1 (e ▸ List.mem_map_of_mem AccountConfig.id hmem)
      rw [List.find?_cons_of_neg _ (by simp [hne])]
      exact ih hnd.2 a hmem

theorem resolveAllEnabled_ok {config : AccountsConfig} {l : List AccountConfig}
    (h : resolveAllEnabled config = .ok l) : l = getEnabledAccounts config := by
  by_cases he : (getEnabledAccounts config).isEmpty = true
  · simp [resolveAllEnabled, he] at h
  · simp [resolveAllEnabled, he] at h
    exact h.symm

/-- Every account an ok read resolution returns is enabled. -/
theorem resolveReadAccounts_ok_enabled {config : AccountsConfig}
    {aid : Option String} {l : List AccountConfig}
    (h : resolveReadAccounts config aid = .ok l) :
    ∀ a ∈ l, a.enabled = true := by
  intro a ha
  have hall : l = getEnabledAccounts config → a.enabled = true := by
    intro he
    subst he
    exact (List.mem_filter.mp ha).2
  cases aid with
  | none =>
    rw [resolveReadAccounts] at h
    exact hall (resolveAllEnabled_ok h)
  | some s =>
    by_cases hb : isNonBlank s = true
    · cases hg : getAccountOrThrow config s with
      | error e => simp [resolveReadAccounts, hb, hg] at h
      | ok acct =>
        by_cases he : acct.enabled = true
        · have hl : l = [acct] := by
            simpa [resolveReadAccounts, hb, hg, he] using h.symm
          subst hl
          rw [List.mem_singleton] at ha
          subst ha
          exact he
        · rw [Bool.not_eq_true] at he
          simp [resolveReadAccounts, hb, hg, he] at h
    · rw [resolveReadAccounts] at h
      rw [if_neg hb] at h
      exact hall (resolveAllEnabled_ok h)

/-- The account an ok write resolution returns is enabled. -/
theorem resolveWriteAccount_ok_enabled {config : AccountsConfig}
    {aid : Option String} {a : AccountConfig}
    (h : resolveWriteAccount config aid = .ok a) : a.enabled = true := by
  cases aid with
  | none => simp [resolveWriteAccount] at h
  | some s =>
    by_cases hb : isNonBlank s = true
    · cases hg : getAccountOrThrow config s with
      | error e => simp [resolveWriteAccount, hb, hg] at h
      | ok acct =>
        by_cases he : acct.enabled = true
        · have hl : a = acct := by
            simpa [resolveWriteAccount, hb, hg, he] using h.symm
          subst hl
          exact he
        · rw [Bool.not_eq_true] at he
          simp [resolveWriteAccount, hb, hg, he] at h
    · simp [resolveWriteAccount, hb] at h

/-- The emails contributed by the successful per-account operations of a
fan-out, in account order. -/
def successEmails (targetAccounts : List AccountConfig)
    (op : AccountConfig → Except String (List ParsedEmail)) : List ParsedEmail :=
  targetAccounts.flatMap (fun a =>
    match op a with
    | .ok emails => emails
    | .error _ => [])

/-- The diagnostics contributed by the failing per-account operations of a
fan-out, in account order: one string `` `${id}: ${msg}` `` per failure. -/
def failureLabels (targetAccounts : List AccountConfig)
    (op : AccountConfig → Except String (List ParsedEmail)) : List String :=
  targetAccounts.filterMap (fun a =>
    match op a with
    | .ok _ => none
    | .error msg => some (a.id ++ ": " ++ msg))

theorem fanout_flatMap_eq (t : List AccountConfig)
    (op : AccountConfig → Except String (List ParsedEmail)) :
    (t.map (runAccountFetch op)).flatMap (fun r => r.emails) = successEmails t op := by
  induction t with
  | nil => rfl
  | cons a rest ih =>
    simp only [successEmails] at ih ⊢
    rw [List.map_cons, List.flatMap_cons, ih, List.flatMap_cons]
    cases hop : op a <;> simp [runAccountFetch, hop]

theorem fanout_errors_eq (t : List AccountConfig)
    (op : AccountConfig → Except String (List ParsedEmail)) :
    ((t.map (runAccountFetch op)).filterMap (fun r => r.error)).filter (fun e => e != "") =
      failureLabels t op := by
  induction t with
  | nil => rfl
  | cons a rest ih =>
    simp only [failureLabels] at ih ⊢
    rw [List.map_cons]
    cases hop : op a with
    | ok emails =>
      have he : (runAccountFetch op a).error = none := by simp [runAccountFetch, hop]
      rw [List.filterMap_cons_none he, ih, List.filterMap_cons, hop]
    | error msg =>
      have he : (runAccountFetch op a).error = some (a.id ++ ": " ++ msg) := by
        simp [runAccountFetch, hop]
      have hne : ((a.id ++ ": " ++ msg) != "") = true := by
        simpa using accountErrorLabel_ne_empty a.id msg
      rw [List.filterMap_cons_some he, List.filter_cons, if_pos hne, ih,
        List.filterMap_cons, hop]

/-- Closed form of the fan-out: sort the flattened successes, truncate after
sorting, report the untruncated total, and keep one diagnostic per failing
account. -/
theorem runReadFanout_eq (t : List AccountConfig)
    (op : AccountConfig → Except String (List ParsedEmail)) (m : Nat) :
    runReadFanout t op m =
      { returned := (sortEmailsDesc (successEmails t op)).take m
        totalFound := (successEmails t op).length
        errors := failureLabels t op } := by
  simp only [runReadFanout, fanout_flatMap_eq, fanout_errors_eq]
  simp [sortEmailsDesc]

theorem sortEmailsDesc_perm (l : List ParsedEmail) : List.Perm (sortEmailsDesc l) l :=
  List.perm_insertionSort emailDateGe l

theorem sortEmailsDesc_sorted (l : List ParsedEmail) :
    List.Sorted emailDateGe (sortEmailsDesc l) :=
  List.sorted_insertionSort emailDateGe l

theorem upsertAccount_of_findIdx?_none {config : AccountsConfig}
    {nextAccount : AccountConfig}
    (h : config.accounts.findIdx? (fun account => account.id == nextAccount.id) = none) :
    upsertAccount config nextAccount =
      { config with accounts := config.accounts ++ [nextAccount] } := by
  unfold upsertAccount
  rw [h]

theorem upsertAccount_of_findIdx?_some {config : AccountsConfig}
    {nextAccount : AccountConfig} {i : Nat}
    (h : config.accounts.findIdx? (fun account => account.id == nextAccount.id) = some i) :
    upsertAccount config nextAccount =
      { config with accounts := config.accounts.set i nextAccount } := by
  unfold upsertAccount
  rw [h]

/-! ### Concrete fixtures used by the spec's worked examples and witnesses -/

/-- A minimal `ParsedEmail` carrying the fields the merge logic reads. -/
def sampleEmail (acct : String) (d : Int) : ParsedEmail :=
  { id := "", threadId := "", snippet := "", fromAddr := "", toAddr := "",
    subject := "", date := "", internalDate := some d,
    accountId := acct, accountEmail := "" }

def sampleAccountA : AccountConfig :=
  { id := "A", email := "a@example.com", enabled := true }

def sampleAccountB : AccountConfig :=
  { id := "B", email := "b@example.com", enabled := true }

def sampleAccountC : AccountConfig :=
  { id := "C", email := "c@example.com", enabled := true }

/-- The per-account operation of the spec's fan-out example: A returns
timestamps [100, 50], B returns [200], C fails with "boom". -/
def fanoutExampleOp (a : AccountConfig) : Except String (List ParsedEmail) :=
  if a.id == "A" then .ok [sampleEmail "A" 100, sampleEmail "A" 50]
  else if a.id == "B" then .ok [sampleEmail "B" 200]
  else .error "boom"

/-- The per-account operation of the spec's truncation example: A returns
[90, 80, 70], B returns [60]. -/
def truncationExampleOp (a : AccountConfig) : Except String (List ParsedEmail) :=
  if a.id == "A" then .ok [sampleEmail "A" 90, sampleEmail "A" 80, sampleEmail "A" 70]
  else .ok [sampleEmail "B" 60]

/-! ### Claim theorems -/

/-- C2: in the fan-out aggregation each per-account outcome is captured
independently — the aggregate is a total function of the per-account results
(no failure aborts it), a successful account contributes exactly its returned
sequence, a failing account contributes zero items and exactly one
`"<accountId>: <message>"` diagnostic, and the merged list is the
descending-by-`internalDate` (missing/non-finite as 0) sorted permutation of
the concatenated successes; on the A/B/C example the merged order is
[200, 100, 50], the errors are ["C: boom"], totalFound = 3 and 3 items are
returned. -/
theorem fanout_captures_outcomes_independently :
    (∀ (t : List AccountConfig) (op : AccountConfig → Except String (List ParsedEmail))
      (m : Nat),
      (runReadFanout t op m).errors = failureLabels t op ∧
      (runReadFanout t op m).totalFound = (successEmails t op).length ∧
      (runReadFanout t op m).returned = (sortEmailsDesc (successEmails t op)).take m ∧
      List.Perm (sortEmailsDesc (successEmails t op)) (successEmails t op) ∧
      List.Sorted emailDateGe (sortEmailsDesc (successEmails t op))) ∧
    ((runReadFanout [sampleAccountA, sampleAccountB, sampleAccountC]
        fanoutExampleOp 10).returned.map emailDateForSort = [200, 100, 50] ∧
      (runReadFanout [sampleAccountA, sampleAccountB, sampleAccountC]
        fanoutExampleOp 10).errors = ["C: boom"] ∧
      (runReadFanout [sampleAccountA, sampleAccountB, sampleAccountC]
        fanoutExampleOp 10).totalFound = 3 ∧
      (runReadFanout [sampleAccountA, sampleAccountB, sampleAccountC]
        fanoutExampleOp 10).returned.length = 3) := by
  constructor
  · intro t op m
    rw [runReadFanout_eq]
    exact ⟨rfl, rfl, rfl, sortEmailsDesc_perm _, sortEmailsDesc_sorted _⟩
  · exact ⟨by decide, by decide, by decide, by decide⟩

/-- C3: truncation happens globally after the merged sort, never per account,
and the reported total is the untruncated merged length; in particular with
A:[90,80,70], B:[60] and limit 2 the fan-out returns [90, 80] (both from A)
and totalFound = 4. -/
theorem truncation_global_after_sort :
    (∀ (t : List AccountConfig) (op : AccountConfig → Except String (List ParsedEmail))
      (m : Nat),
      (runReadFanout t op m).totalFound = (successEmails t op).length ∧
      (runReadFanout t op m).returned = (sortEmailsDesc (successEmails t op)).take m ∧
      (runReadFanout t op m).returned.length = min m (successEmails t op).length) ∧
    ((runReadFanout [sampleAccountA, sampleAccountB]
        truncationExampleOp 2).returned.map emailDateForSort = [90, 80] ∧
      (runReadFanout [sampleAccountA, sampleAccountB]
        truncationExampleOp 2).totalFound = 4) := by
  constructor
  · intro t op m
    rw [runReadFanout_eq]
    refine ⟨rfl, rfl, ?_⟩
    simp [sortEmailsDesc]
  · exact ⟨by decide, by decide⟩

/-- C8: the limit used by the read/search fan-out is the caller's value
clamped into [1, 100] before use — 1000 becomes 100, zero or negative values
become 1 — and `handleReadEmails` hands exactly that clamped value to the
fan-out. -/
theorem read_limit_clamped (v : Int) :
    (1 ≤ readEmailsMaxResults (some v) ∧ readEmailsMaxResults (some v) ≤ 100) ∧
    readEmailsMaxResults (some 1000) = 100 ∧
    readEmailsMaxResults (some 0) = 1 ∧
    (v ≤ 0 → readEmailsMaxResults (some v) = 1) ∧
    (∀ (config : AccountsConfig) (accountArg : Option String)
      (op : AccountConfig → Except String (List ParsedEmail))
      (targets : List AccountConfig),
      resolveReadAccounts config accountArg = .ok targets →
      handleReadEmails config accountArg (some v) op =
        .ok (runReadFanout targets op (readEmailsMaxResults (some v)).toNat)) := by
  refine ⟨⟨le_max_left 1 _, max_le (by decide) (min_le_right v 100)⟩,
    by decide, by decide, ?_, ?_⟩
  · intro hv
    have h1 : min v 100 = v := min_eq_left (by omega)
    simp only [readEmailsMaxResults, Option.getD_some, clamp, h1]
    exact max_eq_left (by omega)
  · intro config accountArg op targets h
    simp [handleReadEmails, h]

def readLimitWitnessConfig : AccountsConfig :=
  { defaultAccount := none, accounts := [sampleAccountA] }

theorem read_limit_clamped_witness :
    ((-5 : Int) ≤ 0 ∧ readEmailsMaxResults (some (-5)) = 1) ∧
    (resolveReadAccounts readLimitWitnessConfig (some "A") = .ok [sampleAccountA] ∧
      handleReadEmails readLimitWitnessConfig (some "A") (some (-5)) fanoutExampleOp =
        .ok (runReadFanout [sampleAccountA] fanoutExampleOp
          (readEmailsMaxResults (some (-5))).toNat)) :=
  ⟨⟨by decide, (read_limit_clamped (-5)).2.2.2.1 (by decide)⟩,
    ⟨by decide, (read_limit_clamped (-5)).2.2.2.2 readLimitWitnessConfig (some "A")
      fanoutExampleOp [sampleAccountA] (by decide)⟩⟩

def disabledAccount : AccountConfig :=
  { id := "off", email := "off@example.com", enabled := false }

def disabledWitnessConfig : AccountsConfig :=
  { defaultAccount := none, accounts := [disabledAccount] }

/-- C1: an account with `enabled = false` is never selected by either
resolver — unconditionally, no ok result of read or write resolution contains
it; and under the registry invariants (pattern-valid id, ids pairwise
distinct) resolving its id fails with the AccountDisabled error for both
read and write. -/
theorem disabled_account_never_selected (config : AccountsConfig)
    (a : AccountConfig) (hmem : a ∈ config.accounts) (hdis : a.enabled = false) :
    (∀ l, resolveReadAccounts config (some a.id) = .ok l → a ∉ l) ∧
    (∀ b, resolveWriteAccount config (some a.id) = .ok b → b ≠ a) ∧
    ((config.accounts.map AccountConfig.id).Nodup → accountIdMatches a.id = true →
      resolveReadAccounts config (some a.id) = .error (.accountDisabled a.id) ∧
      resolveWriteAccount config (some a.id) = .error (.accountDisabled a.id)) := by
  refine ⟨?_, ?_, ?_⟩
  · intro l h hin
    have he := resolveReadAccounts_ok_enabled h a hin
    rw [hdis] at he
    cases he
  · intro b h heq
    have he := resolveWriteAccount_ok_enabled h
    rw [heq, hdis] at he
    cases he
  · intro hnd hmatch
    have hb := isNonBlank_of_accountIdMatches hmatch
    have hfind := find?_id_of_nodup config.accounts hnd a hmem
    constructor
    · simp [resolveReadAccounts, hb, getAccountOrThrow, validateAccountId, hmatch,
        hfind, hdis]
    · simp [resolveWriteAccount, hb, getAccountOrThrow, validateAccountId, hmatch,
        hfind, hdis]

theorem disabled_account_never_selected_witness :
    disabledAccount ∈ disabledWitnessConfig.accounts ∧
    disabledAccount.enabled = false ∧
    resolveReadAccounts disabledWitnessConfig (some "off") =
      .error (.accountDisabled "off") ∧
    resolveWriteAccount disabledWitnessConfig (some "off") =
      .error (.accountDisabled "off") :=
  ⟨by decide, rfl,
    ((disabled_account_never_selected disabledWitnessConfig disabledAccount
      (by decide) rfl).2.2 (by decide) (by decide)).1,
    ((disabled_account_never_selected disabledWitnessConfig disabledAccount
      (by decide) rfl).2.2 (by decide) (by decide)).2⟩

/-- C4 counterexample: the id `"a b"` is given (non-blank) and absent from the
empty registry, yet read resolution fails with the invalid-account-id error,
not with UnknownAccount as the claim states. -/
theorem resolveForRead_nonpattern_counterexample :
    resolveReadAccounts emptyAccountsConfig (some "a b") ≠
      .error (.unknownAccount "a b") ∧
    resolveReadAccounts emptyAccountsConfig (some "a b") =
      .error (.invalidAccountId "a b") := by decide

/-- C4 (amended): for a given account id that matches the identifier pattern,
read resolution fails with UnknownAccount when no account has that id, fails
with AccountDisabled when the (unique) matching account is disabled, and
otherwise returns exactly that one account; with the id omitted it returns
exactly the enabled subset in registry order and fails with NoEnabledAccounts
iff that subset is empty. (Ids failing the pattern fail with InvalidAccountId
instead — see the counterexample.) -/
theorem resolveForRead_contract (config : AccountsConfig) (i : String)
    (hmatch : accountIdMatches i = true) :
    ((∀ a ∈ config.accounts, a.id ≠ i) →
      resolveReadAccounts config (some i) = .error (.unknownAccount i)) ∧
    (∀ a, a ∈ config.accounts → a.id = i →
      (config.accounts.map AccountConfig.id).Nodup →
      (a.enabled = false →
        resolveReadAccounts config (some i) = .error (.accountDisabled i)) ∧
      (a.enabled = true → resolveReadAccounts config (some i) = .ok [a])) ∧
    (resolveReadAccounts config none =
      if (config.accounts.filter (fun a => a.enabled)).isEmpty then
        .error .noEnabledAccounts
      else .ok (config.accounts.filter (fun a => a.enabled))) ∧
    (resolveReadAccounts config none = .error .noEnabledAccounts ↔
      config.accounts.filter (fun a => a.enabled) = []) := by
  have hb : isNonBlank i = true := isNonBlank_of_accountIdMatches hmatch
  refine ⟨?_, ?_, ?_, ?_⟩
  · intro habs
    have hfind : config.accounts.find? (fun item => item.id == i) = none := by
      rw [List.find?_eq_none]
      intro x hx
      simp [habs x hx]
    simp [resolveReadAccounts, hb, getAccountOrThrow, validateAccountId, hmatch, hfind]
  · intro a hmem hid hnd
    subst hid
    have hfind := find?_id_of_nodup config.accounts hnd a hmem
    constructor
    · intro hdis
      simp [resolveReadAccounts, hb, getAccountOrThrow, validateAccountId, hmatch,
        hfind, hdis]
    · intro hen
      simp [resolveReadAccounts, hb, getAccountOrThrow, validateAccountId, hmatch,
        hfind, hen]
  · rfl
  · by_cases he : config.accounts.filter (fun a => a.enabled) = []
    · simp [resolveReadAccounts, resolveAllEnabled, getEnabledAccounts, he]
    · have hne : (config.accounts.filter (fun a => a.enabled)).isEmpty = false := by
        simpa [List.isEmpty_iff] using he
      simp [resolveReadAccounts, resolveAllEnabled, getEnabledAccounts, hne, he]

def resolveWitnessConfig : AccountsConfig :=
  { defaultAccount := none, accounts := [sampleAccountA, disabledAccount] }

theorem resolveForRead_contract_witness :
    accountIdMatches "A" = true ∧
    resolveReadAccounts resolveWitnessConfig (some "A") = .ok [sampleAccountA] ∧
    resolveReadAccounts resolveWitnessConfig (some "off") =
      .error (.accountDisabled "off") ∧
    resolveReadAccounts resolveWitnessConfig (some "zz") =
      .error (.unknownAccount "zz") ∧
    resolveReadAccounts resolveWitnessConfig none = .ok [sampleAccountA] :=
  ⟨by decide,
    ((resolveForRead_contract resolveWitnessConfig "A" (by decide)).2.1 sampleAccountA
      (by decide) rfl (by decide)).2 rfl,
    ((resolveForRead_contract resolveWitnessConfig "off" (by decide)).2.1 disabledAccount
      (by decide) rfl (by decide)).1 rfl,
    (resolveForRead_contract resolveWitnessConfig "zz" (by decide)).1 (by decide),
    by
      have h := (resolveForRead_contract resolveWitnessConfig "A" (by decide)).2.2.1
      rw [h]
      decide⟩

/-- C5 counterexample: the id `"a/b"` is non-blank and absent from the empty
registry, yet write resolution fails with the invalid-account-id error, not
with UnknownAccount as the claim states. -/
theorem resolveForWrite_nonpattern_counterexample :
    resolveWriteAccount emptyAccountsConfig (some "a/b") ≠
      .error (.unknownAccount "a/b") ∧
    resolveWriteAccount emptyAccountsConfig (some "a/b") =
      .error (.invalidAccountId "a/b") := by decide

/-- C5 (amended): write resolution fails with AccountRequired whenever the
account id is missing or blank (it never defaults and never aggregates); for
a non-blank id matching the identifier pattern it fails with UnknownAccount
when the id is absent, AccountDisabled when the (unique) matching account is
disabled, and otherwise returns the one matching account. (Non-blank ids
failing the pattern fail with InvalidAccountId instead — see the
counterexample.) -/
theorem resolveForWrite_contract (config : AccountsConfig) (i : String) :
    resolveWriteAccount config none = .error .accountRequired ∧
    (isNonBlank i = false →
      resolveWriteAccount config (some i) = .error .accountRequired) ∧
    (accountIdMatches i = true →
      ((∀ a ∈ config.accounts, a.id ≠ i) →
        resolveWriteAccount config (some i) = .error (.unknownAccount i)) ∧
      (∀ a, a ∈ config.accounts → a.id = i →
        (config.accounts.map AccountConfig.id).Nodup →
        (a.enabled = false →
          resolveWriteAccount config (some i) = .error (.accountDisabled i)) ∧
        (a.enabled = true → resolveWriteAccount config (some i) = .ok a))) := by
  refine ⟨rfl, ?_, ?_⟩
  · intro hblank
    simp [resolveWriteAccount, hblank]
  · intro hmatch
    have hb : isNonBlank i = true := isNonBlank_of_accountIdMatches hmatch
    constructor
    · intro habs
      have hfind : config.accounts.find? (fun item => item.id == i) = none := by
        rw [List.find?_eq_none]
        intro x hx
        simp [habs x hx]
      simp [resolveWriteAccount, hb, getAccountOrThrow, validateAccountId, hmatch, hfind]
    · intro a hmem hid hnd
      subst hid
      have hfind := find?_id_of_nodup config.accounts hnd a hmem
      constructor
      · intro hdis
        simp [resolveWriteAccount, hb, getAccountOrThrow, validateAccountId, hmatch,
          hfind, hdis]
      · intro hen
        simp [resolveWriteAccount, hb, getAccountOrThrow, validateAccountId, hmatch,
          hfind, hen]

theorem resolveForWrite_contract_witness :
    isNonBlank "  " = false ∧
    resolveWriteAccount resolveWitnessConfig (some "  ") = .error .accountRequired ∧
    resolveWriteAccount resolveWitnessConfig none = .error .accountRequired ∧
    resolveWriteAccount resolveWitnessConfig (some "zz") =
      .error (.unknownAccount "zz") ∧
    resolveWriteAccount resolveWitnessConfig (some "off") =
      .error (.accountDisabled "off") ∧
    resolveWriteAccount resolveWitnessConfig (some "A") = .ok sampleAccountA :=
  ⟨by decide,
    (resolveForWrite_contract resolveWitnessConfig "  ").2.1 (by decide),
    (resolveForWrite_contract resolveWitnessConfig "zz").1,
    ((resolveForWrite_contract resolveWitnessConfig "zz").2.2 (by decide)).1 (by decide),
    (((resolveForWrite_contract resolveWitnessConfig "off").2.2 (by decide)).2
      disabledAccount (by decide) rfl (by decide)).1 rfl,
    (((resolveForWrite_contract resolveWitnessConfig "A").2.2 (by decide)).2
      sampleAccountA (by decide) rfl (by decide)).2 rfl⟩

/-- C10: a non-blank account id that does not match `^[A-Za-z0-9_-]+$` is
rejected with the invalid-account-id error by the lookup — and hence by both
read and write resolution — before the registry is consulted (the result is
the same for every registry), and the UnknownAccount error is only ever
produced for ids that match the pattern. -/
theorem invalid_id_rejected_before_lookup (config : AccountsConfig) (i : String)
    (hnb : isNonBlank i = true) (hbad : accountIdMatches i = false) :
    getAccountOrThrow config i = .error (.invalidAccountId i) ∧
    resolveReadAccounts config (some i) = .error (.invalidAccountId i) ∧
    resolveWriteAccount config (some i) = .error (.invalidAccountId i) ∧
    (∀ (c : AccountsConfig) (j e : String),
      getAccountOrThrow c j = .error (.unknownAccount e) →
      accountIdMatches e = true) := by
  refine ⟨?_, ?_, ?_, ?_⟩
  · simp [getAccountOrThrow, validateAccountId, hbad]
  · simp [resolveReadAccounts, hnb, getAccountOrThrow, validateAccountId, hbad]
  · simp [resolveWriteAccount, hnb, getAccountOrThrow, validateAccountId, hbad]
  · intro c j e h
    by_cases hm : accountIdMatches j = true
    · cases hf : c.accounts.find? (fun item => item.id == j) with
      | none =>
        have hje : j = e := by
          simpa [getAccountOrThrow, validateAccountId, hm, hf] using h
        subst hje
        exact hm
      | some b => simp [getAccountOrThrow, validateAccountId, hm, hf] at h
    · simp [getAccountOrThrow, validateAccountId, hm] at h

theorem invalid_id_rejected_before_lookup_witness :
    isNonBlank "x y" = true ∧ accountIdMatches "x y" = false ∧
    getAccountOrThrow emptyAccountsConfig "x y" = .error (.invalidAccountId "x y") ∧
    resolveReadAccounts emptyAccountsConfig (some "x y") =
      .error (.invalidAccountId "x y") ∧
    resolveWriteAccount emptyAccountsConfig (some "x y") =
      .error (.invalidAccountId "x y") :=
  ⟨by decide, by decide,
    (invalid_id_rejected_before_lookup emptyAccountsConfig "x y"
      (by decide) (by decide)).1,
    (invalid_id_rejected_before_lookup emptyAccountsConfig "x y"
      (by decide) (by decide)).2.1,
    (invalid_id_rejected_before_lookup emptyAccountsConfig "x y"
      (by decide) (by decide)).2.2.1⟩

/-- C6: `load()` synthesises and persists the empty registry when no durable
copy exists; fails with ConfigCorrupt (without recovering) when a durable
copy is present but unparseable; and silently resets `defaultAccount` to
null — not an error — when the persisted default references an id absent from
the parsed account list. -/
theorem loadAccountsConfig_contract (configRoot : String) :
    loadAccountsConfig configRoot .missing =
      { result := .ok emptyAccountsConfig, persisted := some emptyAccountsConfig } ∧
    loadAccountsConfig configRoot .unreadable =
      { result := .error .configCorrupt, persisted := none } ∧
    (∀ (raw : RawConfig) (accounts : List AccountConfig) (d : String),
      sanitizeAccounts configRoot (raw.accounts.getD []) = .ok accounts →
      raw.defaultAccount = some d →
      (∀ a ∈ accounts, a.id ≠ d) →
      loadAccountsConfig configRoot (.readable raw) =
        { result := .ok { defaultAccount := none, accounts := accounts }
          persisted := none }) := by
  refine ⟨rfl, rfl, ?_⟩
  intro raw accounts d hsan hdef habs
  have hany : accounts.any (fun account => account.id == d) = false := by
    rw [List.any_eq_false]
    intro x hx
    simp [habs x hx]
  simp [loadAccountsConfig, hsan, hdef, hany]

def rawWitnessAccount : RawAccount :=
  { id := some "a1", email := some "a1@example.com", enabled := true }

def rawWitnessConfig : RawConfig :=
  { defaultAccount := some "gone", accounts := some [rawWitnessAccount] }

def sanitizedWitnessAccount : AccountConfig :=
  { id := "a1", email := "a1@example.com", enabled := true
    credentialPath := some "/cfg/accounts/a1/credentials.json"
    tokenPath := some "/cfg/accounts/a1/token.json" }

theorem loadAccountsConfig_contract_witness :
    sanitizeAccounts "/cfg" (rawWitnessConfig.accounts.getD []) =
      .ok [sanitizedWitnessAccount] ∧
    rawWitnessConfig.defaultAccount = some "gone" ∧
    (∀ a ∈ [sanitizedWitnessAccount], a.id ≠ "gone") ∧
    loadAccountsConfig "/cfg" (.readable rawWitnessConfig) =
      { result := .ok { defaultAccount := none, accounts := [sanitizedWitnessAccount] }
        persisted := none } :=
  ⟨by decide, rfl, by decide,
    (loadAccountsConfig_contract "/cfg").2.2 rawWitnessConfig
      [sanitizedWitnessAccount] "gone" (by decide) rfl (by decide)⟩

/-- C7: a Finish call whose token exchange returns a payload with neither an
access token nor a refresh token fails with TokenExchangeIncomplete, writes
no token artifact and saves no registry snapshot, so the pending entry is
left exactly as loaded — in particular still `enabled = false`. -/
theorem finish_incomplete_token_is_atomic (configRoot : String)
    (config : AccountsConfig) (accountId authorizationCode : String)
    (a : AccountConfig) (tokens : TokenPayload)
    (clientCreate : Except String Unit) (profileFetch : Except String String)
    (hcode : authorizationCode ≠ "")
    (hacct : getAccountOrThrow config accountId = .ok a)
    (hacc : jsStringFalsy tokens.accessToken = true)
    (href : jsStringFalsy tokens.refreshToken = true) :
    handleFinishAccountAuth configRoot config accountId authorizationCode
        (.ok ()) (.ok tokens) clientCreate profileFetch =
      { result := .error .tokenExchangeIncomplete
        effects := { tokenWrites := [], configSaves := [] } } := by
  obtain ⟨hmatch, hmem, hid⟩ := getAccountOrThrow_ok hacct
  have hne : accountId ≠ "" := accountIdMatches_ne_empty hmatch
  have hne' : (accountId == "") = false := by simpa using hne
  have hcode' : (authorizationCode == "") = false := by simpa using hcode
  simp [handleFinishAccountAuth, hne', hcode', validateAccountId, hmatch, hacct,
    hacc, href]

def pendingAccount : AccountConfig :=
  { id := "p1", email := "p@example.com", enabled := false }

def pendingWitnessConfig : AccountsConfig :=
  { defaultAccount := none, accounts := [pendingAccount] }

theorem finish_incomplete_token_is_atomic_witness :
    "code" ≠ "" ∧
    getAccountOrThrow pendingWitnessConfig "p1" = .ok pendingAccount ∧
    pendingAccount.enabled = false ∧
    handleFinishAccountAuth "/cfg" pendingWitnessConfig "p1" "code" (.ok ())
        (.ok {}) (.ok ()) (.ok "p@example.com") =
      { result := .error .tokenExchangeIncomplete
        effects := { tokenWrites := [], configSaves := [] } } :=
  ⟨by decide, by decide, rfl,
    finish_incomplete_token_is_atomic "/cfg" pendingWitnessConfig "p1" "code"
      pendingAccount {} (.ok ()) (.ok "p@example.com") (by decide) (by decide)
      rfl rfl⟩

/-- C9: `upsert` is a pure function returning a new registry with the same
default pointer in which the account whose id matches is replaced at its
existing position (length and all other positions unchanged) or appended at
the end when no id matches, and applying it twice with the same account
equals applying it once. -/
theorem upsertAccount_contract (config : AccountsConfig) (next : AccountConfig) :
    (upsertAccount config next).defaultAccount = config.defaultAccount ∧
    ((∀ a ∈ config.accounts, a.id ≠ next.id) →
      (upsertAccount config next).accounts = config.accounts ++ [next]) ∧
    (∀ i, config.accounts.findIdx? (fun account => account.id == next.id) = some i →
      (upsertAccount config next).accounts = config.accounts.set i next ∧
      (upsertAccount config next).accounts.length = config.accounts.length ∧
      (∀ j, j ≠ i → (upsertAccount config next).accounts[j]? = config.accounts[j]?) ∧
      (upsertAccount config next).accounts[i]? = some next) ∧
    upsertAccount (upsertAccount config next) next = upsertAccount config next := by
  refine ⟨?_, ?_, ?_, ?_⟩
  · cases hf : config.accounts.findIdx? (fun account => account.id == next.id) with
    | none => rw [upsertAccount_of_findIdx?_none hf]
    | some i => rw [upsertAccount_of_findIdx?_some hf]
  · intro habs
    have hf : config.accounts.findIdx? (fun account => account.id == next.id) = none := by
      rw [List.findIdx?_eq_none_iff]
      intro x hx
      simp [habs x hx]
    rw [upsertAccount_of_findIdx?_none hf]
  · intro i hf
    obtain ⟨hlt, hp, hmin⟩ := List.findIdx?_eq_some_iff_getElem.mp hf
    rw [upsertAccount_of_findIdx?_some hf]
    refine ⟨rfl, by simp, ?_, ?_⟩
    · intro j hj
      exact List.getElem?_set_ne (Ne.symm hj)
    · exact List.getElem?_set_self hlt
  · cases hf : config.accounts.findIdx? (fun account => account.id == next.id) with
    | none =>
      rw [upsertAccount_of_findIdx?_none hf]
      have h2 : (config.accounts ++ [next]).findIdx?
          (fun account => account.id == next.id) = some config.accounts.length := by
        rw [List.findIdx?_append, hf]
        simp
      rw [@upsertAccount_of_findIdx?_some
        { config with accounts := config.accounts ++ [next] } next
        config.accounts.length h2]
      have h3 : (config.accounts ++ [next]).set config.accounts.length next =
          config.accounts ++ [next] := by
        rw [List.set_append_right _ _ (Nat.le_refl _)]
        simp
      rw [h3]
    | some i =>
      rw [upsertAccount_of_findIdx?_some hf]
      obtain ⟨hlt, hp, hmin⟩ := List.findIdx?_eq_some_iff_getElem.mp hf
      have h2 : (config.accounts.set i next).findIdx?
          (fun account => account.id == next.id) = some i := by
        rw [List.findIdx?_eq_some_iff_getElem]
        refine ⟨by simpa using hlt, by simp, ?_⟩
        intro j hj
        have hne : i ≠ j := Nat.ne_of_gt hj
        rw [List.getElem_set_ne hne]
        exact hmin j hj
      rw [@upsertAccount_of_findIdx?_some
        { config with accounts := config.accounts.set i next } next i h2]
      simp [List.set_set]

def upsertNextAccount : AccountConfig :=
  { id := "A", email := "new@example.com", enabled := true }

theorem upsertAccount_contract_witness :
    resolveWitnessConfig.accounts.findIdx?
      (fun account => account.id == upsertNextAccount.id) = some 0 ∧
    (upsertAccount resolveWitnessConfig upsertNextAccount).accounts =
      resolveWitnessConfig.accounts.set 0 upsertNextAccount ∧
    upsertAccount (upsertAccount resolveWitnessConfig upsertNextAccount)
      upsertNextAccount = upsertAccount resolveWitnessConfig upsertNextAccount ∧
    (∀ a ∈ disabledWitnessConfig.accounts, a.id ≠ upsertNextAccount.id) ∧
    (upsertAccount disabledWitnessConfig upsertNextAccount).accounts =
      disabledWitnessConfig.accounts ++ [upsertNextAccount] :=
  ⟨by decide,
    ((upsertAccount_contract resolveWitnessConfig upsertNextAccount).2.2.1 0
      (by decide)).1,
    (upsertAccount_contract resolveWitnessConfig upsertNextAccount).2.2.2,
    by decide,
    (upsertAccount_contract disabledWitnessConfig upsertNextAccount).2.1
      (by decide)⟩

end GmailMcp
